import Mathlib

/-!
Verification development for the api-client-generator repository.

The TypeScript source (OpenAPI parser in `src/parser.ts`, generation engine
in `src/engine.ts`, the TypeScript generator, and the CLI entry point) is
shallowly embedded below.  Raw OpenAPI documents are modelled as nested
structures whose optional JSON fields become `Option` values; JavaScript
string truthiness checks (`if (x)` on a string-valued field) are modelled by
`strT`.  Fields of the source data model that none of the verified
properties touch (examples, formats, security schemes, request bodies,
parameter lists) are omitted from the embedding.
-/

namespace ApiClientGen

/-- JavaScript truthiness of an optional string field: `undefined`, `null`
and the empty string are falsy; every other string is truthy. -/
def strT : Option String → Bool
  | none => false
  | some s => s != ""

/-- JavaScript `str.split(sep)` for a one-character separator, over the character
list (executable in the kernel, unlike `String.splitOn`): adjacent,
leading and trailing separators produce empty segments, and the result is
never empty. -/
def splitCharAux (sep : Char) : List Char → List Char → List String
  | [], acc => [String.mk acc.reverse]
  | c :: rest, acc =>
    if c = sep then String.mk acc.reverse :: splitCharAux sep rest []
    else splitCharAux sep rest (c :: acc)

/-- JavaScript `str.split(sep)` for a one-character separator. -/
def splitChar (sep : Char) (s : String) : List String :=
  splitCharAux sep s.data []

/-- JavaScript `toLowerCase` (character-wise, kernel-executable). -/
def toLowerStr (s : String) : String := String.mk (s.data.map Char.toLower)

/-- JavaScript `toUpperCase` (character-wise, kernel-executable). -/
def toUpperStr (s : String) : String := String.mk (s.data.map Char.toUpper)

/-- JavaScript `s.startsWith(pre)` (kernel-executable). -/
def startsWithStr (s pre : String) : Bool := pre.data.isPrefixOf s.data

/-- Last segment of a slash-separated reference string, as computed by
`refParts[refParts.length - 1]` after `ref.split('/')`. -/
def lastSegment (ref : String) : String :=
  ((splitChar '/' ref).getLast?).getD ""

/-- A raw schema node of the input document: `$ref`, `type`, `items`,
`nullable`, `description` (the fields read by the parser and generator). -/
inductive RawSchema : Type where
  | mk (ref : Option String) (ty : Option String) (items : Option RawSchema)
       (nullable : Bool) (description : Option String)

def RawSchema.decEq : (a b : RawSchema) → Decidable (a = b)
  | .mk r1 t1 i1 n1 d1, .mk r2 t2 i2 n2 d2 =>
    have di : Decidable (i1 = i2) :=
      match i1, i2 with
      | none, none => isTrue rfl
      | some a, some b =>
        match RawSchema.decEq a b with
        | isTrue h => isTrue (congrArg some h)
        | isFalse h => isFalse (fun hh => h (Option.some.inj hh))
      | none, some _ => isFalse (fun hh => Option.noConfusion hh)
      | some _, none => isFalse (fun hh => Option.noConfusion hh)
    if hr : r1 = r2 then
      if ht : t1 = t2 then
        match di with
        | isTrue hi =>
          if hn : n1 = n2 then
            if hd : d1 = d2 then isTrue (by rw [hr, ht, hi, hn, hd])
            else isFalse (fun hh => by cases hh; exact hd rfl)
          else isFalse (fun hh => by cases hh; exact hn rfl)
        | isFalse hi => isFalse (fun hh => by cases hh; exact hi rfl)
      else isFalse (fun hh => by cases hh; exact ht rfl)
    else isFalse (fun hh => by cases hh; exact hr rfl)

instance : DecidableEq RawSchema := RawSchema.decEq

def RawSchema.ref : RawSchema → Option String
  | .mk r _ _ _ _ => r

def RawSchema.ty : RawSchema → Option String
  | .mk _ t _ _ _ => t

def RawSchema.items : RawSchema → Option RawSchema
  | .mk _ _ i _ _ => i

def RawSchema.nullable : RawSchema → Bool
  | .mk _ _ _ n _ => n

def RawSchema.description : RawSchema → Option String
  | .mk _ _ _ _ d => d

/-- Body of `OpenAPIParser.getSchemaType` on a present schema node: a truthy `$ref`
resolves to its last path segment; `type === 'array'` with truthy `items`
recurses and appends `[]`; otherwise `schema.type || 'any'`. -/
def getSchemaTypeAux : RawSchema → String
  | .mk ref ty items _ _ =>
    if strT ref then lastSegment (ref.getD "")
    else
      match items with
      | some it =>
          if ty = some "array" then getSchemaTypeAux it ++ "[]"
          else if strT ty then ty.getD "" else "any"
      | none => if strT ty then ty.getD "" else "any"

/-- Wrapper `OpenAPIParser.getSchemaType`: absent schema yields `"any"`. -/
def getSchemaType : Option RawSchema → String
  | none => "any"
  | some s => getSchemaTypeAux s

/-- One content-type entry of a response/request `content` map. -/
structure RawContent where
  schema : Option RawSchema
deriving DecidableEq

/-- A raw response object: description and the `content` map (modelled as an
association list in object-key iteration order). -/
structure RawResponse where
  description : Option String
  content : Option (List (String × RawContent))
deriving DecidableEq

/-- A raw operation object (the fields the parser reads that the verified
properties depend on). -/
structure RawOperation where
  operationId : Option String
  tags : Option (List String)
  responses : Option (List (String × RawResponse))
deriving DecidableEq

/-- A raw path item: one optional operation per recognized HTTP verb. -/
structure RawPathItem where
  get : Option RawOperation
  post : Option RawOperation
  put : Option RawOperation
  delete : Option RawOperation
  patch : Option RawOperation
  options : Option RawOperation
  head : Option RawOperation
deriving DecidableEq

/-- A raw component schema definition. -/
structure RawSchemaDef where
  ty : Option String
  properties : Option (List (String × RawSchema))
  required : Option (List String)
  description : Option String
deriving DecidableEq

structure RawServer where
  url : String
deriving DecidableEq

structure RawInfo where
  title : Option String
  version : Option String
  description : Option String
deriving DecidableEq

structure RawComponents where
  schemas : Option (List (String × RawSchemaDef))
deriving DecidableEq

/-- The raw OpenAPI document handed to the parser (object maps modelled as
association lists in key iteration order). -/
structure RawDocument where
  openapi : Option String
  swagger : Option String
  info : Option RawInfo
  servers : Option (List RawServer)
  host : Option String
  schemes : Option (List String)
  basePath : Option String
  paths : Option (List (String × RawPathItem))
  components : Option RawComponents
deriving DecidableEq

/-- A parsed response: status-code string kept verbatim, description with
`''` default, schema of the first declared content type. -/
structure ParsedResponse where
  statusCode : String
  description : String
  schema : Option RawSchema
deriving DecidableEq

/-- A parsed endpoint (fields used by the verified properties). -/
structure ParsedEndpoint where
  path : String
  method : String
  operationId : String
  tags : List String
  responses : List ParsedResponse
deriving DecidableEq

/-- A parsed schema property.  `required` is the flag stored at parse time
(`parseProperty` always stores `false`). -/
structure ParsedProperty where
  name : String
  type : String
  description : Option String
  required : Bool
  nullable : Bool
deriving DecidableEq

/-- A parsed named schema with its required-property-name list. -/
structure ParsedSchema where
  name : String
  type : String
  properties : List ParsedProperty
  required : List String
  description : Option String
deriving DecidableEq

/-- The canonical parsed specification. -/
structure ParsedAPISpec where
  title : String
  version : String
  description : Option String
  baseUrl : String
  endpoints : List ParsedEndpoint
  schemas : List ParsedSchema
deriving DecidableEq

/-- JavaScript `charAt(0).toUpperCase() + slice(1)`. -/
def capitalizeFirst (s : String) : String :=
  match s.data with
  | [] => ""
  | c :: cs => String.mk (c.toUpper :: cs)

/-- Source `OpenAPIParser.generateOperationId`: split the path on `/`, drop empty
segments, take the first segment (or `"default"`), and concatenate the
lowercased method with the first-character-uppercased segment. -/
def generateOperationId (method path : String) : String :=
  let parts := (splitChar '/' path).filter (fun s => s != "")
  let resource := parts.head?.getD "default"
  toLowerStr method ++ capitalizeFirst resource

/-- Source `OpenAPIParser.parseResponses`: one `ParsedResponse` per entry of the
`responses` object; the schema comes from the first declared content type. -/
def parseResponses (responses : Option (List (String × RawResponse))) :
    List ParsedResponse :=
  match responses with
  | none => []
  | some rs =>
    rs.map (fun pr =>
      let content := pr.2.content.getD []
      { statusCode := pr.1,
        description := if strT pr.2.description then pr.2.description.getD "" else "",
        schema := content.head?.bind (fun c => c.2.schema) })

/-- Source `OpenAPIParser.parseEndpoint`: operation id is the truthy declared id or
the synthesized one; `tags` defaults to `["default"]` only when the field is
absent (an empty array is truthy in JavaScript and is kept). -/
def parseEndpoint (path method : String) (op : RawOperation) : ParsedEndpoint :=
  { path := path,
    method := method,
    operationId :=
      if strT op.operationId then op.operationId.getD ""
      else generateOperationId method path,
    tags := op.tags.getD ["default"],
    responses := parseResponses op.responses }

/-- The fixed ordered verb list iterated by `parseEndpoints`. -/
def methodNames : List String :=
  ["get", "post", "put", "delete", "patch", "options", "head"]

/-- Field lookup of an operation on a path item by verb name. -/
def opForMethod (item : RawPathItem) : String → Option RawOperation
  | "get" => item.get
  | "post" => item.post
  | "put" => item.put
  | "delete" => item.delete
  | "patch" => item.patch
  | "options" => item.options
  | "head" => item.head
  | _ => none

/-- Source `OpenAPIParser.parseEndpoints`: for each declared path, for each of the
seven verbs in order, emit an endpoint when the operation is present; the
method is passed uppercased. -/
def parseEndpoints (doc : RawDocument) : List ParsedEndpoint :=
  match doc.paths with
  | none => []
  | some ps =>
    ps.flatMap (fun pr =>
      methodNames.filterMap (fun m =>
        (opForMethod pr.2 m).map (fun op => parseEndpoint pr.1 (toUpperStr m) op)))

/-- Source `OpenAPIParser.parseProperty`: note the stored `required` flag is the
constant `false`. -/
def parseProperty (name : String) (s : RawSchema) : ParsedProperty :=
  { name := name,
    type := getSchemaType (some s),
    description := s.description,
    required := false,
    nullable := s.nullable }

/-- Source `OpenAPIParser.parseSchema`. -/
def parseSchema (name : String) (s : RawSchemaDef) : ParsedSchema :=
  { name := name,
    type := if strT s.ty then s.ty.getD "" else "object",
    properties := (s.properties.getD []).map (fun pr => parseProperty pr.1 pr.2),
    required := s.required.getD [],
    description := s.description }

/-- Source `OpenAPIParser.parseSchemas`: one parsed schema per declared component
schema. -/
def parseSchemas (doc : RawDocument) : List ParsedSchema :=
  match doc.components with
  | none => []
  | some c =>
    match c.schemas with
    | none => []
    | some defs => defs.map (fun pr => parseSchema pr.1 pr.2)

/-- Source `OpenAPIParser.getBaseUrl`: first server URL if any server is declared;
else `scheme://host+basePath` from legacy fields for a truthy host; else the
fixed placeholder. -/
def getBaseUrl (doc : RawDocument) : String :=
  match doc.servers with
  | some (s :: _) => s.url
  | _ =>
    if strT doc.host then
      let scheme :=
        if strT (doc.schemes.bind List.head?) then (doc.schemes.bind List.head?).getD ""
        else "https"
      scheme ++ "://" ++ doc.host.getD "" ++ doc.basePath.getD ""
    else "https://api.example.com"

/-- The error message of the constructor's version-marker check. -/
def invalidSpecMessage : String :=
  "Invalid OpenAPI specification: missing openapi or swagger field"

/-- The `OpenAPIParser` constructor check composed with `parse()`: fails
when neither version marker field is truthy, otherwise builds the spec with
defaults for every absent field. -/
def parse (doc : RawDocument) : Except String ParsedAPISpec :=
  if strT doc.openapi || strT doc.swagger then
    .ok
      { title :=
          if strT (doc.info.bind RawInfo.title) then (doc.info.bind RawInfo.title).getD ""
          else "API",
        version :=
          if strT (doc.info.bind RawInfo.version) then (doc.info.bind RawInfo.version).getD ""
          else "1.0.0",
        description := doc.info.bind RawInfo.description,
        baseUrl := getBaseUrl doc,
        endpoints := parseEndpoints doc,
        schemas := parseSchemas doc }
  else .error invalidSpecMessage

/-- Generator configuration (fields consumed by the verified behavior). -/
structure GeneratorConfig where
  language : String
  clientName : String
  includeExamples : Bool
  includeErrorHandling : Bool
deriving DecidableEq

/-- One step of `CodeGeneratorEngine.buildContext`'s inner loop: push the
endpoint onto the bucket for `tag`, creating the bucket at the end of the
map on first use (JavaScript `Map` preserves insertion order of keys). -/
def addToBucket (m : List (String × List ParsedEndpoint)) (tag : String)
    (e : ParsedEndpoint) : List (String × List ParsedEndpoint) :=
  match m with
  | [] => [(tag, [e])]
  | (t, es) :: rest =>
    if t = tag then (t, es ++ [e]) :: rest
    else (t, es) :: addToBucket rest tag e

/-- Source `CodeGeneratorEngine.buildContext`'s grouping loop: for every endpoint,
for every one of its tags, append the endpoint into that tag's bucket. -/
def buildTagMap (endpoints : List ParsedEndpoint) :
    List (String × List ParsedEndpoint) :=
  endpoints.foldl (fun m e => e.tags.foldl (fun acc t => addToBucket acc t e) m) []

/-- Contents of the bucket for a tag (empty when the bucket is absent). -/
def bucketOf (m : List (String × List ParsedEndpoint)) (tag : String) :
    List ParsedEndpoint :=
  match m.find? (fun pr => decide (pr.1 = tag)) with
  | some pr => pr.2
  | none => []

/-- Whether a bucket exists for the tag (`Map.has`). -/
def hasBucket (m : List (String × List ParsedEndpoint)) (tag : String) : Bool :=
  (m.find? (fun pr => decide (pr.1 = tag))).isSome

/-- The generator context built by the engine constructor. -/
structure GeneratorContext where
  config : GeneratorConfig
  spec : ParsedAPISpec
  endpointsByTag : List (String × List ParsedEndpoint)
deriving DecidableEq

/-- Source `CodeGeneratorEngine.buildContext`. -/
def buildContext (config : GeneratorConfig) (spec : ParsedAPISpec) :
    GeneratorContext :=
  { config := config, spec := spec, endpointsByTag := buildTagMap spec.endpoints }

/-- Source `TypeScriptGenerator.getReturnType`: the first response whose status code
starts with `"2"` decides the type; only `$ref` schemas and `array` schemas
whose `items` carry a `$ref` resolve to names, everything else is `any` /
`any[]`. -/
def getReturnType (e : ParsedEndpoint) : String :=
  match e.responses.find? (fun r => startsWithStr r.statusCode "2") with
  | none => "any"
  | some r =>
    match r.schema with
    | none => "any"
    | some s =>
      if strT s.ref then lastSegment (s.ref.getD "")
      else if s.ty = some "array" then
        match s.items with
        | some it =>
          if strT it.ref then lastSegment (it.ref.getD "") ++ "[]" else "any[]"
        | none => "any[]"
      else "any"

/-- Return-type rule in the words of the amended claim: first 2xx response;
no such response or no schema gives `"any"`; a reference gives its last
segment; an array whose items carry a reference gives `Name[]`, any other
array gives `"any[]"`; every other schema, declared primitives included,
gives `"any"`. -/
def returnTypeSpec (e : ParsedEndpoint) : String :=
  match (e.responses.filter (fun r => startsWithStr r.statusCode "2")).head? with
  | none => "any"
  | some r =>
    match r.schema with
    | none => "any"
    | some s =>
      if strT s.ref then lastSegment (s.ref.getD "")
      else if s.ty = some "array" then
        match s.items.bind (fun it => if strT it.ref then it.ref else none) with
        | some ref => lastSegment ref ++ "[]"
        | none => "any[]"
      else "any"

/-- The lookup table of `TypeScriptGenerator.mapType` with its pass-through
default (the lookup key is lowercased, the pass-through keeps the original
label). -/
def mapTypeBase (type : String) : String :=
  let t := toLowerStr type
  if t = "string" then "string"
  else if t = "integer" then "number"
  else if t = "number" then "number"
  else if t = "boolean" then "boolean"
  else if t = "array" then "any[]"
  else if t = "object" then "Record<string, any>"
  else if t = "file" then "Blob"
  else if t = "date" then "string"
  else if t = "date-time" then "string"
  else type

/-- Source `TypeScriptGenerator.mapType`: table lookup, then `' | null'` appended
for nullable properties. -/
def mapType (type : String) (nullable : Bool) : String :=
  if nullable then mapTypeBase type ++ " | null" else mapTypeBase type

/-- Source `BaseGenerator.getTypeName` of the engine (unused by the TypeScript
generator, which calls its own `mapType`): note `email`/`uri` are mapped
here but `object` maps to `any`, not to a dictionary type. -/
def getTypeName (schemaType : String) : String :=
  let t := toLowerStr schemaType
  if t = "string" then "string"
  else if t = "integer" then "number"
  else if t = "number" then "number"
  else if t = "boolean" then "boolean"
  else if t = "array" then "any[]"
  else if t = "object" then "any"
  else if t = "file" then "Blob"
  else if t = "date" then "string"
  else if t = "date-time" then "string"
  else if t = "email" then "string"
  else if t = "uri" then "string"
  else schemaType

/-- One property line of `TypeScriptGenerator.generateSchemas`: the required
marker comes from a membership test of the property name in the owning
schema's required-name list, not from the property's stored flag. -/
def renderProperty (requiredNames : List String) (p : ParsedProperty) : String :=
  let tsType := mapType p.type p.nullable
  let req := requiredNames.contains p.name
  "  /** " ++ (if strT p.description then p.description.getD "" else p.name)
    ++ " */\n  " ++ p.name ++ (if req then "" else "?") ++ ": " ++ tsType ++ ";"

/-- One interface block of `TypeScriptGenerator.generateSchemas`. -/
def renderSchemaInterface (s : ParsedSchema) : String :=
  let props := String.intercalate "\n" (s.properties.map (renderProperty s.required))
  "/** " ++ (if strT s.description then s.description.getD "" else s.name)
    ++ " */\nexport interface " ++ s.name ++ " \x7b\n" ++ props ++ "\n\x7d"

/-- The `types.ts` content written by `TypeScriptGenerator.generateSchemas`
(no file is written when the schema list is empty). -/
def generateSchemasContent (schemas : List ParsedSchema) : Option String :=
  if schemas.isEmpty then none
  else some (String.intercalate "\n\n" (schemas.map renderSchemaInterface))

/-- The error classes declared by the generated `errors.ts` artifact (each
value carries the fields its constructor requires: `ApiResponseError` always
receives a numeric status code, the base `ApiError`'s status code is
optional). -/
inductive GeneratedApiError where
  | apiError (statusCode : Option Nat)
  | apiRequestError
  | apiResponseError (statusCode : Nat)
  | networkError
  | timeoutError
deriving DecidableEq

/-- Semantics of `isRetryableError` from the emitted `errors.ts` string in
`TypeScriptGenerator.generateErrorsFile`: `NetworkError`/`TimeoutError`
instances are retryable; an `ApiResponseError` is retryable when its status
code is truthy and at least 500; everything else is not. -/
def isRetryableError : GeneratedApiError → Bool
  | .networkError => true
  | .timeoutError => true
  | .apiResponseError sc => decide (sc ≠ 0) && decide (500 ≤ sc)
  | .apiError _ => false
  | .apiRequestError => false

/-- The artifact file names written by `TypeScriptGenerator.generate`, in
write order: `types.ts` only when schemas exist, `errors.ts` only with
`includeErrorHandling`, `examples.ts` only with `includeExamples`. -/
def tsArtifactNames (config : GeneratorConfig) (spec : ParsedAPISpec) :
    List String :=
  (if spec.schemas.isEmpty then [] else ["types.ts"])
    ++ ["index.ts"]
    ++ (if config.includeErrorHandling then ["errors.ts"] else [])
    ++ ["params.ts"]
    ++ (if config.includeExamples then ["examples.ts"] else [])
    ++ ["package.json", "tsconfig.json"]

/-- Source `CodeGeneratorEngine.getGenerator`: returns the TypeScript generator for
`"typescript"` and falls back to the TypeScript generator (with a console
notice) for every other language reaching the engine. -/
def getGenerator (language : String) : String :=
  if language == "typescript" then "typescript" else "typescript"

/-- Failure modes of the CLI `generate` command. -/
inductive GenError where
  | inputNotFound
  | invalidLanguage (language : String)
  | invalidSpec (message : String)
deriving DecidableEq

/-- The recognized language set of the CLI `generate` command. -/
def validLanguages : List String := ["typescript", "python", "go"]

/-- The CLI `generateClient` pipeline: input-existence check, then language
validation, then parsing (the first file read), then generation (the file
writes, represented by the produced artifact names). -/
def generateClient (inputExists : Bool) (doc : RawDocument)
    (config : GeneratorConfig) : Except GenError (List String) :=
  if !inputExists then .error .inputNotFound
  else if !(validLanguages.contains config.language) then
    .error (.invalidLanguage config.language)
  else
    match parse doc with
    | .error msg => .error (.invalidSpec msg)
    | .ok spec => .ok (tsArtifactNames config spec)

/-- Number of (path, verb) pairs of the raw document for which an operation
object is present, over the fixed verb list. -/
def countOperations (doc : RawDocument) : Nat :=
  ((doc.paths.getD []).map
    (fun pr => (methodNames.filter (fun m => (opForMethod pr.2 m).isSome)).length)).sum

/-- Number of declared component schemas of the raw document. -/
def countComponentSchemas (doc : RawDocument) : Nat :=
  match doc.components with
  | none => 0
  | some c => (c.schemas.getD []).length

/-- Sample configuration for concrete instantiations. -/
def sampleConfig : GeneratorConfig :=
  { language := "typescript", clientName := "APIClient",
    includeExamples := false, includeErrorHandling := true }

/-- Endpoint whose only 2xx response is an array of Pet references. -/
def petListEndpoint : ParsedEndpoint :=
  { path := "/pets", method := "GET", operationId := "getPets", tags := ["pets"],
    responses := [
      { statusCode := "200", description := "",
        schema := some (RawSchema.mk none (some "array")
          (some (RawSchema.mk (some "#/components/schemas/Pet") none none false none))
          false none) }] }

/-- Endpoint with no 2xx response at all. -/
def no2xxEndpoint : ParsedEndpoint :=
  { path := "/pets", method := "GET", operationId := "getPets", tags := ["pets"],
    responses := [{ statusCode := "404", description := "", schema := none }] }

/-- Endpoint whose 2xx response declares the primitive schema
`\x7btype: "string"\x7d`. -/
def primitiveEndpoint : ParsedEndpoint :=
  { path := "/pets", method := "GET", operationId := "getPets", tags := ["pets"],
    responses := [
      { statusCode := "200", description := "",
        schema := some (RawSchema.mk none (some "string") none false none) }] }

/-- The Pet component schema of the end-to-end example: integer `id`,
string `name`, only `name` required. -/
def petRawSchema : RawSchemaDef :=
  { ty := some "object",
    properties := some [
      ("id", RawSchema.mk none (some "integer") none false none),
      ("name", RawSchema.mk none (some "string") none false none)],
    required := some ["name"],
    description := none }

/-- Operation with no declared id, no tags field and no responses. -/
def bareOperation : RawOperation :=
  { operationId := none, tags := none, responses := none }

/-- Operation declaring an explicitly empty tags array. -/
def emptyTagsOperation : RawOperation :=
  { operationId := none, tags := some [], responses := none }

/-- Minimal valid document: one path with two operations, one schema. -/
def sampleDocument : RawDocument :=
  { openapi := some "3.0.0", swagger := none, info := none, servers := none,
    host := none, schemes := none, basePath := none,
    paths := some [("/pets",
      { get := some bareOperation, post := some bareOperation, put := none,
        delete := none, patch := none, options := none, head := none })],
    components := some { schemas := some [("Pet", petRawSchema)] } }

/-- The parsed form of `sampleDocument`. -/
def sampleSpec : ParsedAPISpec :=
  { title := "API", version := "1.0.0", description := none,
    baseUrl := "https://api.example.com",
    endpoints := [
      { path := "/pets", method := "GET", operationId := "getPets",
        tags := ["default"], responses := [] },
      { path := "/pets", method := "POST", operationId := "postPets",
        tags := ["default"], responses := [] }],
    schemas := [
      { name := "Pet", type := "object",
        properties := [
          { name := "id", type := "integer", description := none,
            required := false, nullable := false },
          { name := "name", type := "string", description := none,
            required := false, nullable := false }],
        required := ["name"], description := none }] }

/-- Endpoint carrying the two tags of the grouping example. -/
def petsStoreEndpoint : ParsedEndpoint :=
  { path := "/a", method := "GET", operationId := "getA",
    tags := ["pets", "store"], responses := [] }

/-- Endpoint carrying a single tag. -/
def storeOnlyEndpoint : ParsedEndpoint :=
  { path := "/b", method := "GET", operationId := "getB",
    tags := ["store"], responses := [] }

/-- Spec with two tagged endpoints, for the grouping instantiation. -/
def taggedSpec : ParsedAPISpec :=
  { title := "API", version := "1.0.0", description := none,
    baseUrl := "https://api.example.com",
    endpoints := [petsStoreEndpoint, storeOnlyEndpoint], schemas := [] }

/-!  Helper lemmas shared by the claim theorems.  -/

theorem head?_filter_eq_find? {α : Type} (p : α → Bool) (l : List α) :
    (l.filter p).head? = l.find? p := by
  induction l with
  | nil => rfl
  | cons a t ih => by_cases h : p a <;> simp [List.filter_cons, List.find?_cons, h, ih]

theorem length_flatMap_eq_sum {α β : Type} (l : List α) (f : α → List β) :
    (l.flatMap f).length = (l.map (fun a => (f a).length)).sum := by
  induction l with
  | nil => rfl
  | cons a t ih => simp [List.flatMap_cons, ih]

theorem length_filterMap_map {α β γ : Type} (l : List α) (f : α → Option β)
    (g : α → β → γ) :
    (l.filterMap (fun a => (f a).map (g a))).length
      = (l.filter (fun a => (f a).isSome)).length := by
  induction l with
  | nil => rfl
  | cons a t ih => cases h : f a <;> simp [List.filterMap_cons, List.filter_cons, h, ih]

theorem bucketOf_nil (t : String) : bucketOf [] t = [] := rfl

theorem bucketOf_cons (u : String) (es : List ParsedEndpoint)
    (rest : List (String × List ParsedEndpoint)) (t : String) :
    bucketOf ((u, es) :: rest) t = if u = t then es else bucketOf rest t := by
  by_cases h : u = t <;> simp [bucketOf, List.find?_cons, h]

theorem hasBucket_nil (t : String) : hasBucket [] t = false := rfl

theorem hasBucket_cons (u : String) (es : List ParsedEndpoint)
    (rest : List (String × List ParsedEndpoint)) (t : String) :
    hasBucket ((u, es) :: rest) t = (decide (u = t) || hasBucket rest t) := by
  by_cases h : u = t <;> simp [hasBucket, List.find?_cons, h]

theorem bucketOf_addToBucket (m : List (String × List ParsedEndpoint))
    (tag : String) (e : ParsedEndpoint) (t : String) :
    bucketOf (addToBucket m tag e) t
      = if t = tag then bucketOf m t ++ [e] else bucketOf m t := by
  induction m with
  | nil =>
    simp only [addToBucket]
    rw [bucketOf_cons, bucketOf_nil]
    by_cases h : t = tag
    · subst h; simp
    · simp [h, Ne.symm h]
  | cons pr rest ih =>
    obtain ⟨u, es⟩ := pr
    simp only [addToBucket]
    by_cases h1 : u = tag
    · subst h1
      rw [if_pos rfl, bucketOf_cons, bucketOf_cons]
      by_cases h2 : u = t
      · subst h2; simp
      · simp [h2, Ne.symm h2]
    · rw [if_neg h1, bucketOf_cons, bucketOf_cons, ih]
      by_cases h2 : u = t
      · subst h2; simp [h1]
      · simp [h2]

theorem hasBucket_addToBucket (m : List (String × List ParsedEndpoint))
    (tag : String) (e : ParsedEndpoint) (t : String) :
    hasBucket (addToBucket m tag e) t = (hasBucket m t || decide (t = tag)) := by
  induction m with
  | nil =>
    simp only [addToBucket]
    rw [hasBucket_cons, hasBucket_nil]
    by_cases h : t = tag
    · subst h; simp
    · simp [h, Ne.symm h]
  | cons pr rest ih =>
    obtain ⟨u, es⟩ := pr
    simp only [addToBucket]
    by_cases h1 : u = tag
    · subst h1
      rw [if_pos rfl, hasBucket_cons, hasBucket_cons]
      by_cases h2 : u = t
      · subst h2; simp
      · simp [h2, Ne.symm h2]
    · rw [if_neg h1, hasBucket_cons, hasBucket_cons, ih]
      by_cases h2 : u = t
      · subst h2; simp [Ne.symm h1]
      · simp [h2, Bool.or_assoc]

theorem bucketOf_tagsFoldl (e : ParsedEndpoint) (tags : List String) :
    ∀ (m : List (String × List ParsedEndpoint)) (t : String),
      bucketOf (tags.foldl (fun acc tg => addToBucket acc tg e) m) t
        = bucketOf m t ++ List.replicate (tags.count t) e := by
  induction tags with
  | nil => intro m t; simp
  | cons tg ts ih =>
    intro m t
    simp only [List.foldl_cons]
    rw [ih, bucketOf_addToBucket]
    by_cases ht : t = tg
    · subst ht
      simp [List.count_cons_self, List.replicate_succ, List.append_assoc]
    · simp [List.count_cons_of_ne ht, ht]

theorem hasBucket_tagsFoldl (e : ParsedEndpoint) (tags : List String) :
    ∀ (m : List (String × List ParsedEndpoint)) (t : String),
      hasBucket (tags.foldl (fun acc tg => addToBucket acc tg e) m) t
        = (hasBucket m t || decide (t ∈ tags)) := by
  induction tags with
  | nil => intro m t; simp
  | cons tg ts ih =>
    intro m t
    simp only [List.foldl_cons]
    rw [ih, hasBucket_addToBucket]
    by_cases ht : t = tg <;> by_cases hm : t ∈ ts <;>
      simp [ht, hm, List.mem_cons]

theorem bucketOf_endpointsFoldl (endpoints : List ParsedEndpoint) :
    ∀ (m : List (String × List ParsedEndpoint)) (t : String),
      bucketOf
          (endpoints.foldl
            (fun acc e => e.tags.foldl (fun a tg => addToBucket a tg e) acc) m) t
        = bucketOf m t
            ++ endpoints.flatMap (fun e => List.replicate (e.tags.count t) e) := by
  induction endpoints with
  | nil => intro m t; simp
  | cons e es ih =>
    intro m t
    simp only [List.foldl_cons]
    rw [ih, bucketOf_tagsFoldl]
    simp [List.flatMap_cons, List.append_assoc]

theorem hasBucket_endpointsFoldl (endpoints : List ParsedEndpoint) :
    ∀ (m : List (String × List ParsedEndpoint)) (t : String),
      hasBucket
          (endpoints.foldl
            (fun acc e => e.tags.foldl (fun a tg => addToBucket a tg e) acc) m) t
        = (hasBucket m t || endpoints.any (fun e => decide (t ∈ e.tags))) := by
  induction endpoints with
  | nil => intro m t; simp
  | cons e es ih =>
    intro m t
    simp only [List.foldl_cons]
    rw [ih, hasBucket_tagsFoldl]
    simp [List.any_cons, Bool.or_assoc, Bool.or_comm, Bool.or_left_comm]

theorem bucketOf_buildTagMap (endpoints : List ParsedEndpoint) (t : String) :
    bucketOf (buildTagMap endpoints) t
      = endpoints.flatMap (fun e => List.replicate (e.tags.count t) e) := by
  unfold buildTagMap
  rw [bucketOf_endpointsFoldl]
  simp [bucketOf]

theorem hasBucket_buildTagMap (endpoints : List ParsedEndpoint) (t : String) :
    hasBucket (buildTagMap endpoints) t
      = endpoints.any (fun e => decide (t ∈ e.tags)) := by
  unfold buildTagMap
  rw [hasBucket_endpointsFoldl]
  simp [hasBucket]

theorem flatMap_replicate_count_eq_filter (t : String) (es : List ParsedEndpoint)
    (h : ∀ e ∈ es, e.tags.Nodup) :
    es.flatMap (fun e => List.replicate (e.tags.count t) e)
      = es.filter (fun e => decide (t ∈ e.tags)) := by
  induction es with
  | nil => rfl
  | cons e rest ih =>
    simp only [List.flatMap_cons, List.filter_cons]
    rw [ih (fun x hx => h x (List.mem_cons_of_mem _ hx))]
    by_cases hm : t ∈ e.tags
    · have hc : e.tags.count t = 1 :=
        List.count_eq_one_of_mem (h e (List.mem_cons_self _ _)) hm
      simp [hc, hm]
    · have hc : e.tags.count t = 0 := List.count_eq_zero_of_not_mem hm
      simp [hc, hm]

theorem mem_bucketOf_buildTagMap (endpoints : List ParsedEndpoint) (t : String)
    (x : ParsedEndpoint) (hx : x ∈ bucketOf (buildTagMap endpoints) t) :
    t ∈ x.tags := by
  rw [bucketOf_buildTagMap] at hx
  rw [List.mem_flatMap] at hx
  obtain ⟨e, -, hrep⟩ := hx
  obtain ⟨hne, hxe⟩ := List.mem_replicate.mp hrep
  subst hxe
  by_contra hnot
  exact hne (List.count_eq_zero_of_not_mem hnot)

theorem length_flatMap_paths (ps : List (String × RawPathItem)) :
    (ps.flatMap (fun pr =>
        methodNames.filterMap (fun m =>
          (opForMethod pr.2 m).map (fun op => parseEndpoint pr.1 (toUpperStr m) op)))).length
      = (ps.map (fun pr =>
          (methodNames.filter (fun m => (opForMethod pr.2 m).isSome)).length)).sum := by
  induction ps with
  | nil => rfl
  | cons pr rest ih =>
    simp only [List.flatMap_cons, List.map_cons, List.sum_cons, List.length_append, ih]
    congr 1
    exact length_filterMap_map _ _ _

theorem parseEndpoints_length (doc : RawDocument) :
    (parseEndpoints doc).length = countOperations doc := by
  unfold parseEndpoints countOperations
  cases hp : doc.paths with
  | none => rfl
  | some ps =>
    simp only [Option.getD_some]
    exact length_flatMap_paths ps

theorem parseSchemas_length (doc : RawDocument) :
    (parseSchemas doc).length = countComponentSchemas doc := by
  unfold parseSchemas countComponentSchemas
  cases hc : doc.components with
  | none => rfl
  | some c => cases hs : c.schemas <;> simp [hs]

/-!  Claim theorems.  -/

/-- C3: parsing fails with the invalid-specification error exactly when the
document lacks both version marker fields (a JavaScript-falsy marker counts
as missing); with at least one marker present, no other absent field makes
parsing fail — every absence falls back to its default, as the all-absent
document shows. -/
theorem parse_fails_iff_missing_markers :
    (∀ doc : RawDocument,
        (∃ spec, parse doc = .ok spec)
          ↔ (strT doc.openapi || strT doc.swagger) = true)
    ∧ (∀ doc : RawDocument, strT doc.openapi = false → strT doc.swagger = false →
        parse doc = .error invalidSpecMessage)
    ∧ parse { openapi := some "3.0.0", swagger := none, info := none,
              servers := none, host := none, schemes := none, basePath := none,
              paths := none, components := none }
        = .ok { title := "API", version := "1.0.0", description := none,
                baseUrl := "https://api.example.com", endpoints := [], schemas := [] } := by
  refine ⟨?_, ?_, rfl⟩
  · intro doc
    cases h : (strT doc.openapi || strT doc.swagger) with
    | true => simp [parse, h]
    | false => simp [parse, h]
  · intro doc h1 h2
    simp [parse, h1, h2]

/-- Witness for C3 at a concrete markerless document. -/
theorem parse_fails_iff_missing_markers_witness :
    parse { openapi := none, swagger := none, info := none, servers := none,
            host := none, schemes := none, basePath := none, paths := none,
            components := none }
      = .error invalidSpecMessage :=
  parse_fails_iff_missing_markers.2.1 _ rfl rfl

/-- C8: every document that parse accepts yields exactly one endpoint per
present (path, verb) operation object — verbs ranging over the fixed list
get, post, put, delete, patch, options, head — and exactly one parsed
schema per declared component schema. -/
theorem parse_counts (doc : RawDocument) (spec : ParsedAPISpec)
    (h : parse doc = .ok spec) :
    spec.endpoints.length = countOperations doc
      ∧ spec.schemas.length = countComponentSchemas doc := by
  unfold parse at h
  split at h
  · cases h
    exact ⟨parseEndpoints_length doc, parseSchemas_length doc⟩
  · cases h

/-- Witness for C8 at the two-operation, one-schema sample document. -/
theorem parse_counts_witness :
    parse sampleDocument = .ok sampleSpec
      ∧ (sampleSpec.endpoints.length = countOperations sampleDocument
          ∧ sampleSpec.schemas.length = countComponentSchemas sampleDocument) :=
  ⟨rfl, parse_counts sampleDocument sampleSpec rfl⟩

/-- C4 counterexample: the operation id synthesized for `GET /pet-store`
is `"getPet-store"` — only the first character of the first path segment is
uppercased — not the full PascalCase form `"getPetStore"` the claim
states. -/
theorem opId_hyphen_counterexample :
    (parseEndpoint "/pet-store" "GET" bareOperation).operationId = "getPet-store"
      ∧ "getPet-store" ≠ "getPetStore" := by
  exact ⟨rfl, by decide⟩

/-- C4 amended: for an operation without a declared identifier, the
synthesized id is `lowercase(method)` concatenated with the first non-empty
path segment with only its first character uppercased (the segment is kept
verbatim otherwise, so hyphens survive); the first segment defaults to
`"default"`, so `GET /pets` yields `getPets` and `POST /` yields
`postDefault`. -/
theorem opId_synthesis_amended :
    (∀ (path method : String) (op : RawOperation), op.operationId = none →
        (parseEndpoint path method op).operationId
          = toLowerStr method
              ++ capitalizeFirst
                  (((splitChar '/' path).find? (fun s => s != "")).getD "default"))
    ∧ (parseEndpoint "/pets" "GET" bareOperation).operationId = "getPets"
    ∧ (parseEndpoint "/" "POST" bareOperation).operationId = "postDefault" := by
  refine ⟨?_, rfl, rfl⟩
  intro path method op h
  have hs : strT op.operationId = false := by rw [h]; rfl
  simp only [parseEndpoint, hs, Bool.false_eq_true, if_false, generateOperationId]
  rw [← head?_filter_eq_find?]

/-- Witness for the amended C4 at the hyphenated path. -/
theorem opId_synthesis_amended_witness :
    (parseEndpoint "/pet-store" "GET" bareOperation).operationId
      = toLowerStr "GET"
          ++ capitalizeFirst
              (((splitChar '/' "/pet-store").find? (fun s => s != "")).getD "default") :=
  opId_synthesis_amended.1 "/pet-store" "GET" bareOperation rfl

/-- C1 counterexample: an endpoint whose only 2xx response declares the
primitive schema `\x7btype: "string"\x7d` gets return type `"any"`, not the
primitive's label `"string"` the claim states. -/
theorem returnType_primitive_counterexample :
    getReturnType primitiveEndpoint = "any" ∧ "any" ≠ "string" :=
  ⟨rfl, by decide⟩

/-- C1 amended: the return type is computed from the first response whose
status-code string begins with "2"; no such response or no schema gives
`any`; a reference gives the last segment of the reference string; an array
whose items carry a reference gives `Name[]` and any other array gives
`any[]`; every other schema — declared primitives included — gives `any`.
In particular the Pet-array endpoint yields `Pet[]` and the endpoint
without a 2xx response yields `any`. -/
theorem getReturnType_amended :
    (∀ e : ParsedEndpoint, getReturnType e = returnTypeSpec e)
    ∧ getReturnType petListEndpoint = "Pet[]"
    ∧ getReturnType no2xxEndpoint = "any" := by
  refine ⟨?_, rfl, rfl⟩
  intro e
  unfold getReturnType returnTypeSpec
  rw [head?_filter_eq_find?]
  cases e.responses.find? (fun r => startsWithStr r.statusCode "2") with
  | none => rfl
  | some r =>
    obtain ⟨sc, ds, sch⟩ := r
    cases sch with
    | none => rfl
    | some s =>
      obtain ⟨ref, ty, items, nb, dsc⟩ := s
      by_cases hr : strT ref
      · simp [RawSchema.ref, hr]
      · simp only [RawSchema.ref, RawSchema.ty, RawSchema.items, hr,
          Bool.false_eq_true, if_false]
        by_cases ha : ty = some "array"
        · rw [if_pos ha, if_pos ha]
          cases items with
          | none => rfl
          | some it =>
            obtain ⟨iref, ity, iitems, inb, ids⟩ := it
            by_cases hir : strT iref
            · cases iref with
              | none => simp [strT] at hir
              | some v =>
                simp [RawSchema.ref, hir, Option.bind, Option.getD]
            · simp [RawSchema.ref, hir, Option.bind]
        · rw [if_neg ha, if_neg ha]

/-- C5: in the built context, the bucket of every tag holds exactly the
endpoints listing that tag, in endpoint (insertion) order — so an endpoint
with N distinct tags appears once in each of its N buckets, repeated
endpoints are kept, nothing is deduplicated or sorted; a bucket exists
exactly for the tags some endpoint carries; and an operation without a tags
field parses to the single tag `"default"`, hence lands only in the
`default` bucket. -/
theorem tag_grouping (config : GeneratorConfig) (spec : ParsedAPISpec)
    (hnd : ∀ e ∈ spec.endpoints, e.tags.Nodup) :
    (∀ t, bucketOf (buildContext config spec).endpointsByTag t
        = spec.endpoints.filter (fun e => decide (t ∈ e.tags)))
    ∧ (∀ t, hasBucket (buildContext config spec).endpointsByTag t = true
        ↔ ∃ e ∈ spec.endpoints, t ∈ e.tags)
    ∧ (∀ (path method : String) (op : RawOperation), op.tags = none →
        (parseEndpoint path method op).tags = ["default"]) := by
  refine ⟨?_, ?_, ?_⟩
  · intro t
    show bucketOf (buildTagMap spec.endpoints) t = _
    rw [bucketOf_buildTagMap, flatMap_replicate_count_eq_filter t spec.endpoints hnd]
  · intro t
    show hasBucket (buildTagMap spec.endpoints) t = true ↔ _
    rw [hasBucket_buildTagMap]
    simp [List.any_eq_true]
  · intro path method op h
    simp [parseEndpoint, h]

/-- Witness for C5 on a concrete two-endpoint spec. -/
theorem tag_grouping_witness :
    bucketOf (buildContext sampleConfig taggedSpec).endpointsByTag "pets"
      = taggedSpec.endpoints.filter (fun e => decide ("pets" ∈ e.tags)) :=
  (tag_grouping sampleConfig taggedSpec (by decide)).1 "pets"

/-- C10: a declared tags array is kept verbatim (an explicitly empty array
stays empty; `"default"` is substituted only when the field is absent), and
an endpoint whose tag list is empty is placed in no bucket of any built tag
map, so no sub-client method is generated for it. -/
theorem empty_tags_zero_buckets (path method : String) (op : RawOperation) :
    (∀ tl, op.tags = some tl → (parseEndpoint path method op).tags = tl)
    ∧ (op.tags = none → (parseEndpoint path method op).tags = ["default"])
    ∧ (op.tags = some [] →
        ∀ (endpoints : List ParsedEndpoint) (t : String),
          parseEndpoint path method op ∉ bucketOf (buildTagMap endpoints) t) := by
  refine ⟨?_, ?_, ?_⟩
  · intro tl h; simp [parseEndpoint, h]
  · intro h; simp [parseEndpoint, h]
  · intro h endpoints t hmem
    have htag := mem_bucketOf_buildTagMap endpoints t _ hmem
    rw [show (parseEndpoint path method op).tags = [] from by simp [parseEndpoint, h]] at htag
    exact absurd htag (List.not_mem_nil t)

/-- Witness for C10 at a concrete empty-tags operation. -/
theorem empty_tags_zero_buckets_witness :
    (parseEndpoint "/pets" "GET" emptyTagsOperation).tags = []
      ∧ parseEndpoint "/pets" "GET" emptyTagsOperation
          ∉ bucketOf (buildTagMap [petsStoreEndpoint]) "pets" :=
  ⟨(empty_tags_zero_buckets "/pets" "GET" emptyTagsOperation).1 [] rfl,
   (empty_tags_zero_buckets "/pets" "GET" emptyTagsOperation).2.2 rfl
     [petsStoreEndpoint] "pets"⟩

theorem contains_eq_decide_mem (l : List String) (a : String) :
    l.contains a = decide (a ∈ l) := by
  induction l with
  | nil => rfl
  | cons b t ih => by_cases h : a = b <;> simp [List.contains_cons, h, ih]

/-- C2: the parser stores `required := false` on every property; the
rendered property line ignores that stored flag entirely and decides the
`?` marker by a generation-time membership test of the property name in the
owning schema's required-name list; and the Pet example renders with `id`
optional and `name` required. -/
theorem required_membership_at_generation :
    (∀ (name : String) (s : RawSchema), (parseProperty name s).required = false)
    ∧ (∀ (req : List String) (p : ParsedProperty) (b : Bool),
        renderProperty req { p with required := b } = renderProperty req p)
    ∧ (∀ (req : List String) (p : ParsedProperty),
        renderProperty req p
          = "  /** " ++ (if strT p.description then p.description.getD "" else p.name)
              ++ " */\n  " ++ p.name ++ (if p.name ∈ req then "" else "?") ++ ": "
              ++ mapType p.type p.nullable ++ ";")
    ∧ generateSchemasContent [parseSchema "Pet" petRawSchema]
        = some ("/** Pet */\nexport interface Pet \x7b\n  /** id */\n  id?: number;\n  /** name */\n  name: string;\n\x7d") := by
  refine ⟨?_, ?_, ?_, rfl⟩
  · intro name s; rfl
  · intro req p b; rfl
  · intro req p
    by_cases h : p.name ∈ req <;>
      simp [renderProperty, contains_eq_decide_mem, h]

/-- C6: a configuration whose language lies outside the recognized set
fails the generation path with the invalid-language error before the
document is consulted — no generator dispatch and no artifact list is ever
produced. -/
theorem invalid_language_rejected (config : GeneratorConfig)
    (h : validLanguages.contains config.language = false) :
    (∀ (inputExists : Bool) (doc : RawDocument),
        generateClient inputExists doc config
          = if inputExists then .error (.invalidLanguage config.language)
            else .error .inputNotFound)
    ∧ (∀ (doc : RawDocument) (files : List String),
        generateClient true doc config ≠ .ok files) := by
  have hm : config.language ∉ validLanguages := by
    rw [contains_eq_decide_mem] at h
    exact of_decide_eq_false h
  constructor
  · intro inputExists doc
    cases inputExists <;> simp [generateClient, hm]
  · intro doc files hok
    simp [generateClient, hm] at hok

/-- Witness for C6 at the unrecognized language `"ruby"`. -/
theorem invalid_language_rejected_witness :
    generateClient true sampleDocument
        { language := "ruby", clientName := "APIClient",
          includeExamples := false, includeErrorHandling := true }
      = .error (.invalidLanguage "ruby") :=
  (invalid_language_rejected
      { language := "ruby", clientName := "APIClient",
        includeExamples := false, includeErrorHandling := true } rfl).1
    true sampleDocument

/-- C7: the retryability predicate of the generated error taxonomy returns
true for every network error and every timeout error, true for response
errors with status at least 500 (such as 503), and false for every other
error, response errors below 500 (such as 404) included; the taxonomy file
is emitted whenever error handling is enabled. -/
theorem retryable_predicate :
    (∀ sc : Nat, 500 ≤ sc → isRetryableError (.apiResponseError sc) = true)
    ∧ (∀ sc : Nat, sc < 500 → isRetryableError (.apiResponseError sc) = false)
    ∧ isRetryableError .networkError = true
    ∧ isRetryableError .timeoutError = true
    ∧ (∀ o, isRetryableError (.apiError o) = false)
    ∧ isRetryableError .apiRequestError = false
    ∧ isRetryableError (.apiResponseError 503) = true
    ∧ isRetryableError (.apiResponseError 404) = false
    ∧ (∀ (config : GeneratorConfig) (spec : ParsedAPISpec),
        config.includeErrorHandling = true →
          "errors.ts" ∈ tsArtifactNames config spec) := by
  refine ⟨?_, ?_, rfl, rfl, fun o => rfl, rfl, rfl, rfl, ?_⟩
  · intro sc h
    simp only [isRetryableError, Bool.and_eq_true, decide_eq_true_eq]
    omega
  · intro sc h
    have hn : ¬(500 ≤ sc) := by omega
    simp [isRetryableError, hn]
  · intro config spec h
    simp [tsArtifactNames, h]

/-- Witness for C7 at status 503. -/
theorem retryable_predicate_witness :
    isRetryableError (.apiResponseError 503) = true :=
  retryable_predicate.1 503 (by decide)

/-- C9 counterexample: the type-mapping function the generator applies to
schema properties and parameters (`mapType`) has no `email`/`uri` entries;
both labels pass through unchanged instead of mapping to `string` as the
claim states. -/
theorem mapType_email_uri_counterexample :
    mapType "email" false = "email" ∧ mapType "uri" false = "uri"
      ∧ "email" ≠ "string" ∧ "uri" ≠ "string" :=
  ⟨rfl, rfl, by decide, by decide⟩

/-- C9 amended: `mapType` — applied to every schema-property and parameter
type label — maps string→string, integer and number→number,
boolean→boolean, array→any[], object→the dictionary type
`Record<string, any>`, file→Blob, and date and date-time→string; `email`
and `uri` are not in the table and, like every other unrecognized label,
pass through unchanged; a nullable property's mapped type is unioned with
null. -/
theorem mapType_table_amended :
    mapType "string" false = "string"
    ∧ mapType "integer" false = "number"
    ∧ mapType "number" false = "number"
    ∧ mapType "boolean" false = "boolean"
    ∧ mapType "array" false = "any[]"
    ∧ mapType "object" false = "Record<string, any>"
    ∧ mapType "file" false = "Blob"
    ∧ mapType "date" false = "string"
    ∧ mapType "date-time" false = "string"
    ∧ (∀ t : String,
        toLowerStr t ∉ (["string", "integer", "number", "boolean", "array",
          "object", "file", "date", "date-time"] : List String) →
        mapType t false = t)
    ∧ (∀ t : String, mapType t true = mapType t false ++ " | null") := by
  refine ⟨rfl, rfl, rfl, rfl, rfl, rfl, rfl, rfl, rfl, ?_, fun t => rfl⟩
  intro t h
  simp only [List.mem_cons, List.not_mem_nil, or_false, not_or] at h
  obtain ⟨h1, h2, h3, h4, h5, h6, h7, h8, h9⟩ := h
  simp [mapType, mapTypeBase, h1, h2, h3, h4, h5, h6, h7, h8, h9]

/-- Witness for the amended C9 at the unrecognized label `"Pet"`. -/
theorem mapType_table_amended_witness :
    mapType "Pet" false = "Pet" :=
  mapType_table_amended.2.2.2.2.2.2.2.2.2.1 "Pet" (by decide)

end ApiClientGen
